import Mathlib

/-!
Verification of the mailbox property-call and SPI-slave (PCM) core of the
raspi-directhw repository, against a shallow embedding of `mailbox.h` and
`spisl.h` in Lean 4.  Hardware registers are modelled by explicit FIFO
streams, flag-observation oracles, and action traces; machine integers are
`Nat` (all quantities involved stay far below 2^32, and no arithmetic in the
embedded code wraps).
-/

namespace RaspiDirecthw

/-! ## C layout of the property-message buffer (`mailbox.h`)

`mbox_property_struct(size)` is

    struct {
      mbox_property_header_t header;  -- two uint32 fields, typedef aligned(16)
      mbox_tag_header_t tag;          -- two uint32 fields + one 32-bit bitfield word
      uint32_t data[size];
      uint32_t end;
    }

Under the C ABI used on the target (verified against GCC): the header member
occupies 8 bytes at offset 0, the tag 12 bytes at offset 8, `data` starts at
offset 20, `end` at offset 20 + 4*size; the struct's alignment is 16 (from the
aligned(16) header member), so `sizeof` is the content size 24 + 4*size
rounded up to the next multiple of 16. -/

/-- Round `n` up to the next multiple of `a` (C struct tail padding). -/
def alignUp (n a : Nat) : Nat := ((n + a - 1) / a) * a

/-- `sizeof(mbox_property_header_t)`: two `uint32` fields; the `aligned(16)`
attribute on the typedef raises the alignment but not the size. -/
def mbox_header_size : Nat := 8

/-- `sizeof(mbox_tag_header_t)`: `tag`, `buffer_size`, and the packed
`response_length:31 / has_response:1` word. -/
def mbox_tag_header_size : Nat := 12

/-- `sizeof(mbox_property_struct(size))`: header, tag header, `size` data
words, the `end` word, rounded up to the struct alignment of 16 that the
`aligned(16)` header member imposes. -/
def mbox_property_struct_size (size : Nat) : Nat :=
  alignUp (mbox_header_size + mbox_tag_header_size + 4 * size + 4) 16

/-- The value the `mbox_property_call` macro stores in `header.buffer_size`:
`sizeof(mbox)`. -/
def mbox_property_call_buffer_size (size : Nat) : Nat :=
  mbox_property_struct_size size

/-- The byte length of the serialized content as the spec describes it:
8-byte header, 12-byte tag header, the value words, and the trailing 4-byte
zero terminator, with no padding. -/
def spec_exact_serialized_length (size : Nat) : Nat :=
  8 + mbox_tag_header_size + 4 * size + 4

/-! ## Mailbox transport (`mailbox.h`)

`mbox_call` pushes the word `chan | addr` and then reads words from the
receive FIFO, discarding every word different from the pushed one.  The
stream of words the FIFO will deliver is modelled as a list. -/

/-- The read loop of `mbox_call`: pop words from the stream until one equals
`wanted`; return the unread remainder of the stream (`none` = the loop never
returns because no matching word arrives). -/
def mbox_call_recv (wanted : Nat) : List Nat → Option (List Nat)
  | [] => none
  | w :: rest => if w = wanted then some rest else mbox_call_recv wanted rest

/-! ## SPI slave byte operations (`spisl.h`)

`spisl_write` waits for transmit space, pushes `data` into the transmit
FIFO, then runs `while (HW.PCM.CS.B.RXD) dummy = HW.PCM.FIFO;`: it pops the
receive FIFO as long as the receive-data-available flag is set.  The receive
FIFO at the moment of the write is modelled as a list (`RXD` set = list
nonempty); the drain loop pops until it is empty. -/

/-- The drain loop at the end of `spisl_write`: pop while data is available.
Returns (number of bytes popped, receive FIFO afterwards). -/
def spisl_drain : List Nat → Nat × List Nat
  | [] => (0, [])
  | _ :: rest => ((spisl_drain rest).1 + 1, (spisl_drain rest).2)

/-- `spisl_write data tx rx`: transmit FIFO after the push, bytes drained
from the receive FIFO, and the receive FIFO afterwards. -/
def spisl_write (data : Nat) (tx rx : List Nat) :
    List Nat × Nat × List Nat :=
  (tx ++ [data], spisl_drain rx)

/-! ## Byte synchronizer (`spisl.h`, `spisl_synchronize`)

    incoming = spisl_read();
    while (cnt++ < 10) {
      if (incoming != marker) { gate clock; cnt = 0; }
      incoming = spisl_read();
    }
    spisl_write(marker);
    marker ^= 0xff;
    while (incoming != marker) incoming = spisl_read();

The byte stream delivered by successive `spisl_read` calls is a list; an
exhausted list means `spisl_read` blocks forever (`none`).  The marker is
0x81 = 129 and the final sentinel 0x81 ^ 0xff = 0x7e = 126. -/

/-- The counting loop of `spisl_synchronize`, from counter `cnt` with byte
`inc` in hand and stream `s` still to come.  On a mismatching byte the
counter restarts at 0 (the clock-gate correction itself only changes which
bytes arrive later, which the stream already reflects); on a match it is
incremented; the loop exits once the test `cnt < 10` fails.  Returns the byte
in hand at exit and the unread stream. -/
def spisl_sync_loop (cnt inc : Nat) : List Nat → Option (Nat × List Nat)
  | [] => if cnt < 10 then none else some (inc, [])
  | b :: rest =>
    if cnt < 10 then
      spisl_sync_loop (if inc = 129 then cnt + 1 else 0) b rest
    else
      some (inc, b :: rest)

/-- The closing loop of `spisl_synchronize`: read until the byte in hand is
the inverted marker 0x7e; return the unread stream. -/
def spisl_final_loop (inc : Nat) : List Nat → Option (List Nat)
  | [] => if inc = 126 then some [] else none
  | b :: rest => if inc = 126 then some (b :: rest) else spisl_final_loop b rest

/-- A hardware interaction of `spisl_synchronize`: a byte read from, or
written to, the PCM FIFO. -/
inductive SpislEv where
  | rd (b : Nat)
  | wr (b : Nat)
deriving DecidableEq, Repr

/-- `spisl_synchronize` over a byte stream: initial read, counting loop,
one-byte acknowledgement write, closing loop.  Returns the ordered trace of
FIFO reads and writes together with the unread remainder of the stream. -/
def spisl_synchronize (s : List Nat) : Option (List SpislEv × List Nat) :=
  match s with
  | [] => none
  | b0 :: rest =>
    match spisl_sync_loop 0 b0 rest with
    | none => none
    | some (inc, rest2) =>
      match spisl_final_loop inc rest2 with
      | none => none
      | some rest3 =>
        some ((s.take (s.length - rest2.length)).map SpislEv.rd
                ++ [SpislEv.wr 129]
                ++ ((s.take (s.length - rest3.length)).drop
                      (s.length - rest2.length)).map SpislEv.rd,
              rest3)

/-! ## Mailbox register/barrier action traces (`mailbox.h`)

For the refinement claim, both `mbox_call` and the composition of
`mbox_write` with repeated `mbox_read` are rendered as the exact sequence of
hardware actions they perform.  The environment is: `k`, the number of times
the full flag reads set before the write goes through, and for each read a
pair `(e, d)`: the number of times the empty flag reads set before data
arrives, and the data word `d` then read. -/

/-- One primitive hardware action of the mailbox code. -/
inductive MAct where
  | pollFull (b : Bool)
  | wrData (w : Nat)
  | barrier
  | pollEmpty (b : Bool)
  | rdData (w : Nat)
deriving DecidableEq, Repr

/-- Trace of `mbox_write chan addr`: spin on the full flag (`k` times set,
then clear), write `chan | addr`, then issue a barrier. -/
def mbox_write_tr (chan addr k : Nat) : List MAct :=
  List.replicate k (MAct.pollFull true)
    ++ [MAct.pollFull false, MAct.wrData (Nat.lor chan addr), MAct.barrier]

/-- Trace of one `mbox_read`: issue a barrier, spin on the empty flag
(`e` times set, then clear), read the data word `d`. -/
def mbox_read_tr (e d : Nat) : List MAct :=
  MAct.barrier :: List.replicate e (MAct.pollEmpty true)
    ++ [MAct.pollEmpty false, MAct.rdData d]

/-- Trace of the read loop of `mbox_call`: one `barrier`/empty-spin/read
round per response word, stopping at the first word equal to `wanted`
(`none` if the response list is exhausted first; each round's actions are
exactly those of `mbox_read_tr`, inlined as in the source). -/
def mbox_call_recv_tr (wanted : Nat) : List (Nat × Nat) → Option (List MAct)
  | [] => none
  | (e, d) :: rest =>
    if d = wanted then some (mbox_read_tr e d)
    else (mbox_call_recv_tr wanted rest).map (mbox_read_tr e d ++ ·)

/-- Trace of `mbox_call chan addr`: spin on the full flag, write the word —
*with no barrier of its own* — then run the read loop, whose each round
begins with a barrier. -/
def mbox_call_tr (chan addr k : Nat) (resps : List (Nat × Nat)) :
    Option (List MAct) :=
  (mbox_call_recv_tr (Nat.lor chan addr) resps).map
    (fun tr => List.replicate k (MAct.pollFull true)
      ++ [MAct.pollFull false, MAct.wrData (Nat.lor chan addr)] ++ tr)

/-- The composition the spec describes: one full `mbox_write` followed by
repeated `mbox_read` until the word read equals the word written. -/
def mbox_write_then_reads_tr (chan addr k : Nat) (resps : List (Nat × Nat)) :
    Option (List MAct) :=
  (mbox_call_recv_tr (Nat.lor chan addr) resps).map
    (fun tr => mbox_write_tr chan addr k ++ tr)

/-- One fold step of barrier normalization: drop a barrier that immediately
precedes another barrier. -/
def dedupBStep (a : MAct) (acc : List MAct) : List MAct :=
  match a, acc with
  | MAct.barrier, MAct.barrier :: _ => acc
  | _, _ => a :: acc

/-- Collapse every run of consecutive barriers in a trace to a single
barrier (a memory barrier is idempotent: two in a row order exactly the same
accesses as one). -/
def dedupBarriers (tr : List MAct) : List MAct :=
  tr.foldr dedupBStep []

/-! ## `spisl_init` action trace (`spisl.h`)

`spisl_init` is straight-line register code plus three data-dependent loops:
the receive-FIFO drain (`d` stale bytes), and the two sync-flag waits (`a`
polls before the flag asserts, `c` polls before it clears again).  Each
register access, delay and GPIO reconfiguration is one action, in source
order. -/

/-- One action of `spisl_init`. -/
inductive IAct where
  /-- `gpio_configure(pin, Input)` -/
  | gpioInput (pin : Nat)
  /-- `gpio_configure(pin, Alt2)` -/
  | gpioAlt2 (pin : Nat)
  /-- `memory_barrier()` -/
  | barrier
  /-- one iteration of `while (HW.PCM.CS.B.RXD) (void)HW.PCM.FIFO;` -/
  | drainRead
  /-- `HW.PCM.CS.B.EN = 0` -/
  | enClear
  /-- `st_delay(ST_1ms)` -/
  | delay1ms
  /-- `HW.PCM.RXC.U = 0` -/
  | rxcZero
  /-- `HW.PCM.TXC.U = 0` -/
  | txcZero
  /-- `HW.PCM.INTEN.U = 0` -/
  | intenZero
  /-- `HW.PCM.INTSTC.U = 15` -/
  | intstcSet
  /-- `HW.PCM.GRAY.U = 0` -/
  | grayZero
  /-- the four `HW.PCM.RXC.B.CH1…` field writes, in order -/
  | rxcBit (n : Nat)
  /-- the four `HW.PCM.TXC.B.CH1…` field writes, in order -/
  | txcBit (n : Nat)
  /-- `HW.CM[CM_PCM].DIV.B = pcm_cm_div` -/
  | cmDiv
  /-- `HW.CM[CM_PCM].CTL.B = pcm_cm_ctl` -/
  | cmCtl
  /-- `HW.PCM.MODE.B = mode_master` -/
  | modeMasterW
  /-- `HW.PCM.MODE.B.CLK_DIS = b` -/
  | clkDisW (b : Bool)
  /-- `HW.PCM.CS.B = init_cs` -/
  | csInitW
  /-- one poll of `HW.PCM.CS.B.SYNC` observing value `b` -/
  | syncRead (b : Bool)
  /-- `HW.PCM.CS.B.SYNC = 0` -/
  | syncClearW
  /-- `HW.PCM.MODE.B = mode_slave` -/
  | modeSlaveW
deriving DecidableEq, Repr

/-- The action trace of `spisl_init`, in source order, when the receive FIFO
holds `d` stale bytes, the sync flag reads clear `a` times before asserting,
and reads set `c` times after the acknowledge write before clearing. -/
def spisl_init_tr (d a c : Nat) : List IAct :=
  [IAct.gpioInput 28, IAct.gpioInput 29, IAct.gpioInput 30, IAct.gpioInput 31,
   IAct.barrier]
  ++ List.replicate d IAct.drainRead
  ++ [IAct.enClear, IAct.delay1ms,
      IAct.rxcZero, IAct.txcZero, IAct.intenZero, IAct.intstcSet,
      IAct.grayZero,
      IAct.rxcBit 0, IAct.rxcBit 1, IAct.rxcBit 2, IAct.rxcBit 3,
      IAct.txcBit 0, IAct.txcBit 1, IAct.txcBit 2, IAct.txcBit 3,
      IAct.cmDiv, IAct.cmCtl,
      IAct.modeMasterW, IAct.clkDisW false, IAct.csInitW]
  ++ List.replicate a (IAct.syncRead false)
  ++ [IAct.syncRead true, IAct.syncClearW]
  ++ List.replicate c (IAct.syncRead true)
  ++ [IAct.syncRead false,
      IAct.clkDisW true, IAct.modeSlaveW,
      IAct.barrier,
      IAct.gpioAlt2 28, IAct.gpioAlt2 29, IAct.gpioAlt2 30, IAct.gpioAlt2 31,
      IAct.barrier,
      IAct.clkDisW false,
      IAct.barrier]

/-- Selector: FIFO drain reads and the PCM-enable clear. -/
def isDrainOrEn : IAct → Bool
  | IAct.drainRead => true
  | IAct.enClear => true
  | _ => false

/-- Selector: the PCM-enable clear, the settle delay, and every
channel-configuration register write. -/
def isDisableOrCfg : IAct → Bool
  | IAct.enClear => true
  | IAct.delay1ms => true
  | IAct.rxcZero => true
  | IAct.txcZero => true
  | IAct.intenZero => true
  | IAct.intstcSet => true
  | IAct.grayZero => true
  | IAct.rxcBit _ => true
  | IAct.txcBit _ => true
  | _ => false

/-- Selector: the master/slave mode writes, sync-flag polls and clear, and
the GPIO reattachments. -/
def isModeSyncPin : IAct → Bool
  | IAct.modeMasterW => true
  | IAct.modeSlaveW => true
  | IAct.syncRead _ => true
  | IAct.syncClearW => true
  | IAct.gpioAlt2 _ => true
  | _ => false

/-! ## Fuel-bounded busy-wait loops (`mailbox.h`, `spisl.h`)

The blocking primitives poll one status flag.  The environment gives the
flag's value at each successive poll; `fuel` bounds how many polls we are
willing to watch.  `none` means the loop was still spinning when the fuel
ran out — so "for every fuel the result is `none`" says the operation never
returns. -/

/-- Spin while `cond` holds: `cond t` is the polled value at the `t`-th
poll.  Returns the poll index at which the loop fell through, `none` if it
was still spinning after `fuel` polls. -/
def busyWait (cond : Nat → Bool) : Nat → Nat → Option Nat
  | 0, _ => none
  | f + 1, t => if cond t then busyWait cond f (t + 1) else some t

/-- `mbox_read`: barrier, spin while the empty flag is set, then read the
data register. -/
def mbox_read_f (empty : Nat → Bool) (data : Nat → Nat) (fuel t : Nat) :
    Option Nat :=
  (busyWait empty fuel t).map data

/-- `mbox_write`: spin while the full flag is set, then write (the returned
index is the poll at which the write went through). -/
def mbox_write_f (full : Nat → Bool) (fuel t : Nat) : Option Nat :=
  busyWait full fuel t

/-- `spisl_read`: spin while the receive-data-available flag is clear, then
read the FIFO. -/
def spisl_read_f (rxd : Nat → Bool) (fifo : Nat → Nat) (fuel t : Nat) :
    Option Nat :=
  (busyWait (fun u => !(rxd u)) fuel t).map fifo

/-- The read loop of `mbox_call`: spin while empty; on data, return if it
matches `wanted`, else keep polling. -/
def mbox_call_loop_f (wanted : Nat) (empty : Nat → Bool) (data : Nat → Nat) :
    Nat → Nat → Option Nat
  | 0, _ => none
  | f + 1, t =>
    if empty t then mbox_call_loop_f wanted empty data f (t + 1)
    else if data t = wanted then some t
    else mbox_call_loop_f wanted empty data f (t + 1)

/-- `mbox_call`: the full-flag wait and write, then the matching-read
loop. -/
def mbox_call_f (wanted : Nat) (full empty : Nat → Bool) (data : Nat → Nat)
    (f1 f2 t : Nat) : Option Nat :=
  match busyWait full f1 t with
  | none => none
  | some t' => mbox_call_loop_f wanted empty data f2 (t' + 1)

/-! ## Clock-control property calls (`mailbox.h`)

`mbox_get_clock`, `mbox_get_clock_measured` and `mbox_set_clock` each build
a property message, submit it, and read the data words the firmware wrote
back into the buffer.  The firmware is modelled as a function from the tag
and the request's data words to the buffer contents after the call: the
`code` word it sets and the data words it leaves.  The returned `code` is
what the firmware wrote; the data words are all that the callers read. -/

/-- Buffer state after a 2-data-word property call: the `code` word and the
two data words. -/
structure PropResp2 where
  code : Nat
  d0 : Nat
  d1 : Nat

/-- Buffer state after a 3-data-word property call. -/
structure PropResp3 where
  code : Nat
  d0 : Nat
  d1 : Nat
  d2 : Nat

/-- `MBOX_TAG_GET_CLOCK_STATE` -/
def MBOX_TAG_GET_CLOCK_STATE : Nat := 0x00030001
/-- `MBOX_TAG_GET_CLOCK_RATE` -/
def MBOX_TAG_GET_CLOCK_RATE : Nat := 0x00030002
/-- `MBOX_TAG_GET_CLOCK_RATE_MEASURED` -/
def MBOX_TAG_GET_CLOCK_RATE_MEASURED : Nat := 0x00030047
/-- `MBOX_TAG_SET_CLOCK_STATE` -/
def MBOX_TAG_SET_CLOCK_STATE : Nat := 0x00038001
/-- `MBOX_TAG_SET_CLOCK_RATE` -/
def MBOX_TAG_SET_CLOCK_RATE : Nat := 0x00038002

/-- `mbox_get_clock`: request `GET_CLOCK_STATE` with data `[clock, 0]`; if
the returned second data word is zero, return 0; otherwise request
`GET_CLOCK_RATE` with data `[clock, 0]` and return its second data word.
Returns the result together with the list of `(tag, data)` requests
issued. -/
def mbox_get_clock_run (fw : Nat → Nat → Nat → PropResp2) (clock : Nat) :
    Nat × List (Nat × Nat × Nat) :=
  let r1 := fw MBOX_TAG_GET_CLOCK_STATE clock 0
  if r1.d1 = 0 then
    (0, [(MBOX_TAG_GET_CLOCK_STATE, clock, 0)])
  else
    let r2 := fw MBOX_TAG_GET_CLOCK_RATE clock 0
    (r2.d1, [(MBOX_TAG_GET_CLOCK_STATE, clock, 0),
             (MBOX_TAG_GET_CLOCK_RATE, clock, 0)])

/-- The value `mbox_get_clock` returns. -/
def mbox_get_clock (fw : Nat → Nat → Nat → PropResp2) (clock : Nat) : Nat :=
  (mbox_get_clock_run fw clock).1

/-- `mbox_get_clock_measured`: one `GET_CLOCK_RATE_MEASURED` request with
data `[clock, 0]`; return the second data word written back. -/
def mbox_get_clock_measured (fw : Nat → Nat → Nat → PropResp2)
    (clock : Nat) : Nat :=
  (fw MBOX_TAG_GET_CLOCK_RATE_MEASURED clock 0).d1

/-- `mbox_set_clock`: a `SET_CLOCK_STATE` request with data
`[clock, 1, junk]` (the third word is never initialized in the source — it
is whatever was on the stack), then a `SET_CLOCK_RATE` request with data
`[clock, freq, 0]` — the code overwrites all three data words after the
first call, so the second request is independent of the first response.
The effect is the list of requests issued; no response word is read. -/
def mbox_set_clock (fw : Nat → Nat → Nat → Nat → PropResp3)
    (clock freq junk : Nat) : List (Nat × Nat × Nat × Nat) :=
  let _r1 := fw MBOX_TAG_SET_CLOCK_STATE clock 1 junk
  [(MBOX_TAG_SET_CLOCK_STATE, clock, 1, junk),
   (MBOX_TAG_SET_CLOCK_RATE, clock, freq, 0)]

end RaspiDirecthw

namespace RaspiDirecthw

/-- **C1.** The claim states that for every tag payload size the constructed
buffer's `buffer_size` header equals the exact serialized byte length
8 + 12 + 4*size + 4 with no extra bytes.  This fails: `sizeof` includes tail
padding to the 16-byte struct alignment.  At size 3 — the size
`mbox_set_clock` actually uses — `buffer_size` is 48 while the exact
serialized length is 36. -/
theorem C1_counterexample :
    mbox_property_call_buffer_size 3 = 48 ∧
    spec_exact_serialized_length 3 = 36 ∧
    mbox_property_call_buffer_size 3 ≠ spec_exact_serialized_length 3 := by
  refine ⟨by decide, by decide, by decide⟩

/-- **C1 (amended).** `mbox_property_call` sets `buffer_size` to the exact
serialized length (8-byte header + 12-byte tag header + value words + 4-byte
terminator) rounded up to the next multiple of 16, the struct's alignment;
this equals the exact length precisely when that length is a multiple of 16
(i.e. `size ≡ 2 [MOD 4]`), and otherwise counts 4 to 12 extra padding
bytes. -/
theorem C1_buffer_size_eq_aligned_exact (size : Nat) :
    mbox_property_call_buffer_size size =
      alignUp (spec_exact_serialized_length size) 16 ∧
    spec_exact_serialized_length size ≤ mbox_property_call_buffer_size size ∧
    mbox_property_call_buffer_size size < spec_exact_serialized_length size + 16 ∧
    (mbox_property_call_buffer_size size = spec_exact_serialized_length size ↔
      size % 4 = 2) := by
  unfold mbox_property_call_buffer_size mbox_property_struct_size
    spec_exact_serialized_length alignUp mbox_header_size mbox_tag_header_size
  refine ⟨rfl, ?_, ?_, ?_⟩
  · omega
  · omega
  · constructor
    · intro h; omega
    · intro h; omega

/-- Closed instance of C1 (amended) at payload size 5. -/
theorem C1_buffer_size_eq_aligned_exact_witness :
    mbox_property_call_buffer_size 5 =
      alignUp (spec_exact_serialized_length 5) 16 ∧
    spec_exact_serialized_length 5 ≤ mbox_property_call_buffer_size 5 ∧
    mbox_property_call_buffer_size 5 < spec_exact_serialized_length 5 + 16 ∧
    (mbox_property_call_buffer_size 5 = spec_exact_serialized_length 5 ↔
      5 % 4 = 2) :=
  C1_buffer_size_eq_aligned_exact 5

/-- **C2.** The read loop of `mbox_call` returns exactly on the first word
bit-equal to the pushed word `chan | addr`: every earlier, non-matching word
is discarded without affecting the result, and conversely whenever the loop
returns, the consumed prefix consisted of non-matching words followed by the
matching one. -/
theorem C2_call_returns_on_matching_word :
    (∀ chan addr pre post, (Nat.lor chan addr) ∉ pre →
      mbox_call_recv (Nat.lor chan addr) (pre ++ (Nat.lor chan addr) :: post) =
        some post) ∧
    (∀ wanted s s', mbox_call_recv wanted s = some s' →
      ∃ pre, s = pre ++ wanted :: s' ∧ wanted ∉ pre) := by
  constructor
  · intro chan addr pre post hpre
    induction pre with
    | nil => simp [mbox_call_recv]
    | cons w rest ih =>
      have hw : w ≠ Nat.lor chan addr := by
        intro h; exact hpre (h ▸ List.mem_cons_self w rest)
      have hrest : (Nat.lor chan addr) ∉ rest := by
        intro h; exact hpre (List.mem_cons_of_mem w h)
      simp only [List.cons_append, mbox_call_recv, if_neg hw]
      exact ih hrest
  · intro wanted s
    induction s with
    | nil => intro s' h; simp [mbox_call_recv] at h
    | cons w rest ih =>
      intro s' h
      by_cases hw : w = wanted
      · subst hw
        simp [mbox_call_recv] at h
        exact ⟨[], by simp [h], by simp⟩
      · simp only [mbox_call_recv, if_neg hw] at h
        obtain ⟨pre, hs, hnot⟩ := ih s' h
        refine ⟨w :: pre, by simp [hs], ?_⟩
        intro hmem
        rcases List.mem_cons.mp hmem with h1 | h2
        · exact hw h1.symm
        · exact hnot h2

/-- Closed instance of C2: with pushed word `1 ||| 32 = 33`, the stream
`[5, 12, 33, 7]` discards `5` and `12` and returns on `33`, leaving `[7]`;
and the decomposition direction recovers that prefix. -/
theorem C2_call_returns_on_matching_word_witness :
    mbox_call_recv (Nat.lor 1 32) ([5, 12] ++ (Nat.lor 1 32) :: [7]) = some [7] ∧
    ∃ pre, ([33, 33, 9] : List Nat) = pre ++ 33 :: [33, 9] ∧ (33 : Nat) ∉ pre := by
  constructor
  · exact C2_call_returns_on_matching_word.1 1 32 [5, 12] [7] (by decide)
  · exact C2_call_returns_on_matching_word.2 33 [33, 33, 9] [33, 9] (by decide)

/-- The drain loop pops every byte: it returns the full length of the
receive FIFO and leaves it empty. -/
theorem spisl_drain_eq (rx : List Nat) : spisl_drain rx = (rx.length, []) := by
  induction rx with
  | nil => rfl
  | cons b rest ih => simp [spisl_drain, ih]

/-- **C3 (counterexample).** The claim states that when receive data is
available at the moment of the write, `spisl_write` drains exactly one byte —
no more.  With two bytes in the receive FIFO (receive-data-available set),
the drain loop pops both: it drains 2 bytes, not 1. -/
theorem C3_counterexample :
    ([5, 6] : List Nat) ≠ [] ∧
    (spisl_write 0 [] [5, 6]).2.1 = 2 ∧ ((2 : Nat) = 1 → False) := by
  refine ⟨by decide, by decide, by decide⟩

/-- **C3 (amended).** When receive data is available at the moment of the
write, `spisl_write` drains *every* byte then in the receive FIFO before
returning — at least one, exactly as many as are available, leaving the
receive FIFO empty (so exactly one precisely when one byte was available). -/
theorem C3_write_drains_available (data : Nat) (tx rx : List Nat)
    (h : rx ≠ []) :
    1 ≤ (spisl_write data tx rx).2.1 ∧
    (spisl_write data tx rx).2.1 = rx.length ∧
    (spisl_write data tx rx).2.2 = [] := by
  have hd := spisl_drain_eq rx
  have hlen : 1 ≤ rx.length := by
    cases rx with
    | nil => exact absurd rfl h
    | cons b rest => simp
  refine ⟨?_, ?_, ?_⟩ <;> simp [spisl_write, hd, hlen]

/-- Closed instance of C3 (amended): one byte available, one byte drained,
receive FIFO left empty. -/
theorem C3_write_drains_available_witness :
    1 ≤ (spisl_write 0 [] [7]).2.1 ∧
    (spisl_write 0 [] [7]).2.1 = [7].length ∧
    (spisl_write 0 [] [7]).2.2 = ([] : List Nat) :=
  C3_write_drains_available 0 [] [7] (by decide)

/-- Whenever the counting loop of `spisl_synchronize` exits, the bytes it
consumed decompose as `checked ++ [r]` with `r` the unexamined byte left in
hand, and either the last 10 examined bytes were all the marker, or the run
was shorter than 10 examined bytes, they were all markers, and the entry
counter made up the difference. -/
theorem spisl_sync_loop_decomp (s : List Nat) :
    ∀ cnt inc r s', spisl_sync_loop cnt inc s = some (r, s') →
      ∃ checked, inc :: s = checked ++ r :: s' ∧
        ((10 ≤ checked.length ∧
            ∀ b ∈ checked.drop (checked.length - 10), b = 129) ∨
         (checked.length < 10 ∧ 10 ≤ cnt + checked.length ∧
            ∀ b ∈ checked, b = 129)) := by
  induction s with
  | nil =>
    intro cnt inc r s' h
    by_cases hc : cnt < 10
    · simp [spisl_sync_loop, hc] at h
    · simp [spisl_sync_loop, hc] at h
      refine ⟨[], by simp [h.1, h.2], Or.inr ?_⟩
      simp; omega
  | cons b rest ih =>
    intro cnt inc r s' h
    by_cases hc : cnt < 10
    · simp only [spisl_sync_loop, if_pos hc] at h
      obtain ⟨checked', hdec, hdisj⟩ := ih _ b r s' h
      refine ⟨inc :: checked', by simp [hdec], ?_⟩
      rcases hdisj with ⟨hlen, hmark⟩ | ⟨hlen, hcnt, hmark⟩
      · left
        refine ⟨by simp; omega, ?_⟩
        have : (inc :: checked').length - 10 = (checked'.length - 10) + 1 := by
          simp; omega
        rw [this, List.drop_succ_cons]
        exact hmark
      · by_cases hm : inc = 129
        · subst hm
          simp only [reduceIte] at hcnt
          by_cases hfull : checked'.length + 1 < 10
          · right
            refine ⟨by simpa using hfull, by simp; omega, ?_⟩
            intro x hx
            rcases List.mem_cons.mp hx with h1 | h2
            · exact h1
            · exact hmark x h2
          · left
            have hten : (129 :: checked').length = 10 := by simp; omega
            refine ⟨by omega, ?_⟩
            rw [hten]
            simp only [Nat.sub_self, List.drop_zero]
            intro x hx
            rcases List.mem_cons.mp hx with h1 | h2
            · exact h1
            · exact hmark x h2
        · simp only [if_neg hm] at hcnt
          omega
    · simp [spisl_sync_loop, hc] at h
      refine ⟨[], by simp [h.1, h.2], Or.inr ?_⟩
      simp; omega

/-- **C4.** In the counting loop of `spisl_synchronize`: (1) any single byte
different from the marker 0x81 resets the consecutive-marker counter to 0,
regardless of prior progress — the loop continues exactly as if restarted
from counter 0 on the following byte; (2) whenever the loop exits (from
counter 0, as `spisl_synchronize` starts it), at least 10 bytes have been
examined and the last 10 examined bytes were all the marker — so exit happens
only after 10 consecutive marker bytes since the last mismatch. -/
theorem C4_sync_counter_reset_and_threshold :
    (∀ cnt inc b rest, cnt < 10 → inc ≠ 129 →
      spisl_sync_loop cnt inc (b :: rest) = spisl_sync_loop 0 b rest) ∧
    (∀ inc s r s', spisl_sync_loop 0 inc s = some (r, s') →
      ∃ checked, inc :: s = checked ++ r :: s' ∧ 10 ≤ checked.length ∧
        ∀ b ∈ checked.drop (checked.length - 10), b = 129) := by
  constructor
  · intro cnt inc b rest hc hm
    simp [spisl_sync_loop, hc, hm]
  · intro inc s r s' h
    obtain ⟨checked, hdec, hdisj⟩ := spisl_sync_loop_decomp s 0 inc r s' h
    rcases hdisj with ⟨hlen, hmark⟩ | ⟨hlen, hcnt, _⟩
    · exact ⟨checked, hdec, hlen, hmark⟩
    · omega

/-- Closed instance of C4: after 9 correct markers the counter is 9, and one
wrong byte (0x80) makes the loop continue exactly as from counter 0, not 8;
and a concrete exiting run is decomposed by the threshold property. -/
theorem C4_sync_counter_reset_and_threshold_witness :
    spisl_sync_loop 9 128 (129 :: [126]) = spisl_sync_loop 0 129 [126] ∧
    ∃ checked,
      (129 : Nat) :: (List.replicate 10 129 ++ [7]) = checked ++ 129 :: [7] ∧
      10 ≤ checked.length ∧
      ∀ b ∈ checked.drop (checked.length - 10), b = 129 := by
  constructor
  · exact C4_sync_counter_reset_and_threshold.1 9 128 129 [126]
      (by decide) (by decide)
  · exact C4_sync_counter_reset_and_threshold.2 129
      (List.replicate 10 129 ++ [7]) 129 [7] (by decide)

/-- A successful read-loop trace always begins with a barrier (every round
of the loop issues its barrier first). -/
theorem mbox_call_recv_tr_head_barrier (wanted : Nat)
    (resps : List (Nat × Nat)) :
    ∀ tr, mbox_call_recv_tr wanted resps = some tr →
      ∃ tr0, tr = MAct.barrier :: tr0 := by
  induction resps with
  | nil => intro tr h; simp [mbox_call_recv_tr] at h
  | cons p rest ih =>
    obtain ⟨e, d⟩ := p
    intro tr h
    by_cases hd : d = wanted
    · simp only [mbox_call_recv_tr, if_pos hd, Option.some_inj] at h
      exact ⟨_, by rw [← h]; rfl⟩
    · simp only [mbox_call_recv_tr, if_neg hd] at h
      cases hrec : mbox_call_recv_tr wanted rest with
      | none => rw [hrec] at h; simp at h
      | some tr' =>
        rw [hrec] at h
        simp only [Option.map_some', Option.some_inj] at h
        exact ⟨_, by rw [← h]; rfl⟩

/-- Collapsing a barrier into an already-normalized trace is idempotent:
the result of `dedupBStep MAct.barrier` always starts with a barrier, so a
second application changes nothing. -/
theorem dedupBStep_barrier_idem (z : List MAct) :
    dedupBStep MAct.barrier (dedupBStep MAct.barrier z) =
      dedupBStep MAct.barrier z := by
  cases z with
  | nil => rfl
  | cons a z' => cases a <;> rfl

/-- Two adjacent barriers collapse to one under barrier normalization, in
any surrounding trace. -/
theorem dedupBarriers_double (X tr0 : List MAct) :
    dedupBarriers (X ++ MAct.barrier :: MAct.barrier :: tr0) =
      dedupBarriers (X ++ MAct.barrier :: tr0) := by
  unfold dedupBarriers
  rw [List.foldr_append, List.foldr_append]
  congr 1
  exact dedupBStep_barrier_idem _

/-- **C6 (counterexample).** The claim reads `mbox_call` as *equal in its
action sequence* to `mbox_write` followed by repeated `mbox_read`.  Taken as
equality of raw action traces this fails: `mbox_write` ends with a barrier
and each `mbox_read` begins with one, while `mbox_call` issues only the
read-loop barrier after the write — the composition has one extra barrier.
Concretely (channel 8, address 16, no full spins, immediate matching
response) the two traces differ. -/
theorem C6_counterexample :
    mbox_call_tr 8 16 0 [(0, 24)] ≠ mbox_write_then_reads_tr 8 16 0 [(0, 24)] := by
  decide

/-- **C6 (amended).** For every environment, the action trace of `mbox_call`
equals that of one `mbox_write` followed by repeated `mbox_read` until the
word read equals the word written, up to collapsing runs of consecutive
barriers to one (memory barriers are idempotent): the only difference is
that `mbox_call` merges the write's trailing barrier with the first read's
leading barrier. -/
theorem C6_call_refines_write_then_reads (chan addr k : Nat)
    (resps : List (Nat × Nat)) :
    (mbox_call_tr chan addr k resps).map dedupBarriers =
      (mbox_write_then_reads_tr chan addr k resps).map dedupBarriers := by
  unfold mbox_call_tr mbox_write_then_reads_tr
  cases hrec : mbox_call_recv_tr (Nat.lor chan addr) resps with
  | none => rfl
  | some tr =>
    obtain ⟨tr0, rfl⟩ := mbox_call_recv_tr_head_barrier _ _ _ hrec
    simp only [Option.map_some', Option.some_inj]
    have h1 : List.replicate k (MAct.pollFull true)
        ++ [MAct.pollFull false, MAct.wrData (Nat.lor chan addr)]
        ++ MAct.barrier :: tr0
      = (List.replicate k (MAct.pollFull true)
          ++ [MAct.pollFull false, MAct.wrData (Nat.lor chan addr)])
        ++ MAct.barrier :: tr0 := by simp
    have h2 : mbox_write_tr chan addr k ++ MAct.barrier :: tr0
      = (List.replicate k (MAct.pollFull true)
          ++ [MAct.pollFull false, MAct.wrData (Nat.lor chan addr)])
        ++ MAct.barrier :: MAct.barrier :: tr0 := by
      simp [mbox_write_tr]
    rw [h1, h2, dedupBarriers_double]

/-- Closed instance of C6 (amended): one full spin, one unrelated response
word discarded, then the matching word. -/
theorem C6_call_refines_write_then_reads_witness :
    (mbox_call_tr 8 16 1 [(2, 3), (0, 24)]).map dedupBarriers =
      (mbox_write_then_reads_tr 8 16 1 [(2, 3), (0, 24)]).map dedupBarriers :=
  C6_call_refines_write_then_reads 8 16 1 [(2, 3), (0, 24)]

/-- **C5.** On the input stream 0x81 ×10 then one more 0x81 then 0x7E,
`spisl_synchronize` terminates and returns with the whole stream consumed,
and its FIFO trace is: eleven reads of 0x81 (ten to pass the threshold plus
the one byte the loop leaves in hand), then exactly one acknowledgement write
of 0x81, then the single read of the 0x7E sentinel — the acknowledgement is
transmitted after the threshold is reached and before the sentinel wait. -/
theorem C5_synchronize_terminates_one_ack :
    spisl_synchronize (List.replicate 11 129 ++ [126]) =
      some (List.replicate 11 (SpislEv.rd 129)
              ++ [SpislEv.wr 129, SpislEv.rd 126], []) := by
  decide

/-- Filtering a constant list keeps all of it or none of it. -/
theorem filter_replicate {α : Type} (n : Nat) (x : α) (p : α → Bool) :
    (List.replicate n x).filter p =
      if p x then List.replicate n x else [] := by
  induction n with
  | zero => simp
  | succ n ih =>
    by_cases h : p x <;>
      simp [List.replicate_succ, List.filter_cons, h, ih]

/-- **C7.** In every execution of `spisl_init` (any number `d` of stale
bytes, any sync-flag poll counts `a`, `c`), the actions occur in the claimed
order, shown by projecting the trace onto the relevant actions: (1) all
drain reads precede the PCM-enable clear; (2) the enable clear is followed
by the 1 ms settle delay before any channel-configuration register write;
(3) the master-mode write precedes the observation of the sync flag
asserting and then clearing, which precedes the slave-mode write, which
precedes the reattachment of GPIO pins 28–31. -/
theorem C7_init_ordering (d a c : Nat) :
    (spisl_init_tr d a c).filter isDrainOrEn =
      List.replicate d IAct.drainRead ++ [IAct.enClear] ∧
    (spisl_init_tr d a c).filter isDisableOrCfg =
      [IAct.enClear, IAct.delay1ms,
       IAct.rxcZero, IAct.txcZero, IAct.intenZero, IAct.intstcSet,
       IAct.grayZero,
       IAct.rxcBit 0, IAct.rxcBit 1, IAct.rxcBit 2, IAct.rxcBit 3,
       IAct.txcBit 0, IAct.txcBit 1, IAct.txcBit 2, IAct.txcBit 3] ∧
    (spisl_init_tr d a c).filter isModeSyncPin =
      [IAct.modeMasterW]
        ++ List.replicate a (IAct.syncRead false)
        ++ [IAct.syncRead true, IAct.syncClearW]
        ++ List.replicate c (IAct.syncRead true)
        ++ [IAct.syncRead false, IAct.modeSlaveW,
            IAct.gpioAlt2 28, IAct.gpioAlt2 29, IAct.gpioAlt2 30,
            IAct.gpioAlt2 31] := by
  refine ⟨?_, ?_, ?_⟩ <;>
    simp [spisl_init_tr, List.filter_append, filter_replicate,
      List.filter_cons, isDrainOrEn, isDisableOrCfg, isModeSyncPin]

/-- Closed instance of C7 at 2 stale bytes and 1 poll in each sync wait,
shown for the drain-versus-disable projection. -/
theorem C7_init_ordering_witness :
    (spisl_init_tr 2 1 1).filter isDrainOrEn =
      List.replicate 2 IAct.drainRead ++ [IAct.enClear] :=
  (C7_init_ordering 2 1 1).1

/-- A busy-wait whose continue-condition holds at every poll never falls
through, whatever the fuel. -/
theorem busyWait_spins (cond : Nat → Bool) (h : ∀ u, cond u = true) :
    ∀ fuel t, busyWait cond fuel t = none := by
  intro fuel
  induction fuel with
  | zero => intro t; rfl
  | succ f ih => intro t; simp [busyWait, h t, ih]

/-- The read loop of `mbox_call` never returns while the empty flag stays
set. -/
theorem mbox_call_loop_spins (wanted : Nat) (empty : Nat → Bool)
    (data : Nat → Nat) (h : ∀ u, empty u = true) :
    ∀ fuel t, mbox_call_loop_f wanted empty data fuel t = none := by
  intro fuel
  induction fuel with
  | zero => intro t; rfl
  | succ f ih => intro t; simp [mbox_call_loop_f, h t, ih]

/-- **C8.** None of the blocking operations observes elapsed time or gives
up: in every environment where the polled flag never changes — the read FIFO
stays empty for `mbox_read` and `mbox_call`, the write FIFO stays full for
`mbox_write`, receive-data-available stays clear for `spisl_read` — the
operation has still not returned after any number of polls. -/
theorem C8_no_timeout :
    (∀ (empty : Nat → Bool) (data : Nat → Nat) fuel t,
      (∀ u, empty u = true) → mbox_read_f empty data fuel t = none) ∧
    (∀ (full : Nat → Bool) fuel t,
      (∀ u, full u = true) → mbox_write_f full fuel t = none) ∧
    (∀ wanted (full empty : Nat → Bool) (data : Nat → Nat) f1 f2 t,
      (∀ u, empty u = true) →
      mbox_call_f wanted full empty data f1 f2 t = none) ∧
    (∀ (rxd : Nat → Bool) (fifo : Nat → Nat) fuel t,
      (∀ u, rxd u = false) → spisl_read_f rxd fifo fuel t = none) := by
  refine ⟨?_, ?_, ?_, ?_⟩
  · intro empty data fuel t h
    simp [mbox_read_f, busyWait_spins empty h]
  · intro full fuel t h
    simp [mbox_write_f, busyWait_spins full h]
  · intro wanted full empty data f1 f2 t h
    unfold mbox_call_f
    cases hw : busyWait full f1 t with
    | none => rfl
    | some t' => exact mbox_call_loop_spins wanted empty data h f2 (t' + 1)
  · intro rxd fifo fuel t h
    have : ∀ u, (!(rxd u)) = true := by intro u; simp [h u]
    simp [spisl_read_f, busyWait_spins _ this]

/-- Closed instance of C8: with flags frozen in the blocking state, every
operation is still spinning after 5 polls. -/
theorem C8_no_timeout_witness :
    mbox_read_f (fun _ => true) (fun _ => 0) 5 0 = none ∧
    mbox_write_f (fun _ => true) 5 0 = none ∧
    mbox_call_f 9 (fun _ => false) (fun _ => true) (fun _ => 0) 5 5 0 = none ∧
    spisl_read_f (fun _ => false) (fun _ => 0) 5 0 = none :=
  ⟨C8_no_timeout.1 (fun _ => true) (fun _ => 0) 5 0 (fun _ => rfl),
   C8_no_timeout.2.1 (fun _ => true) 5 0 (fun _ => rfl),
   C8_no_timeout.2.2.1 9 (fun _ => false) (fun _ => true) (fun _ => 0) 5 5 0
     (fun _ => rfl),
   C8_no_timeout.2.2.2 (fun _ => false) (fun _ => 0) 5 0 (fun _ => rfl)⟩

/-- **C9.** No caller of the property-call layer branches on the status
code: for any two firmwares that write back the same data words but
arbitrary different `code` words (success sentinel vs error sentinel), the
values returned by `mbox_get_clock` and `mbox_get_clock_measured` are
identical, and the effect of `mbox_set_clock` (the requests it issues) is
the same — indeed independent of the firmware entirely. -/
theorem C9_status_code_ignored :
    (∀ (fw fw' : Nat → Nat → Nat → PropResp2) clock,
      (∀ t a b, (fw t a b).d0 = (fw' t a b).d0 ∧
                (fw t a b).d1 = (fw' t a b).d1) →
      mbox_get_clock fw clock = mbox_get_clock fw' clock ∧
      mbox_get_clock_measured fw clock = mbox_get_clock_measured fw' clock) ∧
    (∀ (fw3 fw3' : Nat → Nat → Nat → Nat → PropResp3) clock freq junk,
      mbox_set_clock fw3 clock freq junk =
        mbox_set_clock fw3' clock freq junk) := by
  constructor
  · intro fw fw' clock h
    constructor
    · have h1 := (h MBOX_TAG_GET_CLOCK_STATE clock 0).2
      have h2 := (h MBOX_TAG_GET_CLOCK_RATE clock 0).2
      simp only [mbox_get_clock, mbox_get_clock_run, h1, h2]
    · exact (h MBOX_TAG_GET_CLOCK_RATE_MEASURED clock 0).2
  · intro fw3 fw3' clock freq junk
    rfl

/-- Closed instance of C9: a firmware answering with the success sentinel
0x80000000 and one answering with the error sentinel 0x80000001, writing
back the same data words, give identical results and effects. -/
theorem C9_status_code_ignored_witness :
    mbox_get_clock (fun _ a b => ⟨0x80000000, a, b + 7⟩) 3 =
      mbox_get_clock (fun _ a b => ⟨0x80000001, a, b + 7⟩) 3 ∧
    mbox_get_clock_measured (fun _ a b => ⟨0x80000000, a, b + 7⟩) 3 =
      mbox_get_clock_measured (fun _ a b => ⟨0x80000001, a, b + 7⟩) 3 ∧
    mbox_set_clock (fun _ a b c => ⟨0x80000000, a, b, c⟩) 2 19200000 5 =
      mbox_set_clock (fun _ a b c => ⟨0x80000001, a, b, c⟩) 2 19200000 5 := by
  refine ⟨?_, ?_, ?_⟩
  · exact (C9_status_code_ignored.1 (fun _ a b => ⟨0x80000000, a, b + 7⟩)
      (fun _ a b => ⟨0x80000001, a, b + 7⟩) 3 (fun _ _ _ => ⟨rfl, rfl⟩)).1
  · exact (C9_status_code_ignored.1 (fun _ a b => ⟨0x80000000, a, b + 7⟩)
      (fun _ a b => ⟨0x80000001, a, b + 7⟩) 3 (fun _ _ _ => ⟨rfl, rfl⟩)).2
  · exact C9_status_code_ignored.2 (fun _ a b c => ⟨0x80000000, a, b, c⟩)
      (fun _ a b c => ⟨0x80000001, a, b, c⟩) 2 19200000 5

/-- **C10.** If the `GET_CLOCK_STATE` response leaves the second data word
zero, `mbox_get_clock` returns 0 having issued only the `GET_CLOCK_STATE`
request — no `GET_CLOCK_RATE` request; otherwise it issues `GET_CLOCK_RATE`
with data `[clock, 0]` and returns the second data word of that response. -/
theorem C10_get_clock_short_circuit (fw : Nat → Nat → Nat → PropResp2)
    (clock : Nat) :
    ((fw MBOX_TAG_GET_CLOCK_STATE clock 0).d1 = 0 →
      mbox_get_clock_run fw clock =
        (0, [(MBOX_TAG_GET_CLOCK_STATE, clock, 0)])) ∧
    ((fw MBOX_TAG_GET_CLOCK_STATE clock 0).d1 ≠ 0 →
      mbox_get_clock_run fw clock =
        ((fw MBOX_TAG_GET_CLOCK_RATE clock 0).d1,
         [(MBOX_TAG_GET_CLOCK_STATE, clock, 0),
          (MBOX_TAG_GET_CLOCK_RATE, clock, 0)])) := by
  constructor
  · intro h; simp [mbox_get_clock_run, h]
  · intro h; simp [mbox_get_clock_run, h]

/-- Closed instance of C10: a firmware reporting the clock off yields 0 and
one request; one reporting it on yields the rate response and both
requests. -/
theorem C10_get_clock_short_circuit_witness :
    mbox_get_clock_run (fun _ _ _ => ⟨0x80000000, 3, 0⟩) 3 =
      (0, [(MBOX_TAG_GET_CLOCK_STATE, 3, 0)]) ∧
    mbox_get_clock_run (fun _ _ _ => ⟨0x80000000, 3, 250000000⟩) 3 =
      (250000000, [(MBOX_TAG_GET_CLOCK_STATE, 3, 0),
                   (MBOX_TAG_GET_CLOCK_RATE, 3, 0)]) :=
  ⟨(C10_get_clock_short_circuit (fun _ _ _ => ⟨0x80000000, 3, 0⟩) 3).1 rfl,
   (C10_get_clock_short_circuit
      (fun _ _ _ => ⟨0x80000000, 3, 250000000⟩) 3).2 (by decide)⟩

end RaspiDirecthw
